import Mathlib

/-!
Verification of the preview-cache utilities of `lib/gui/utils.py`.

The embedding models the `Images` preview cache (watermark-based directory
scanning, thumbnail cache append/trim, grid compositing), the training-preview
error counter, and the `LongRunningTask` result accessor.

Modelling conventions:
* File modification/creation times are natural numbers (Python floats are only
  compared and maxed here, never combined arithmetically).
* A thumbnail (`Thumb`) is a pixel buffer: a list of pixel rows, each row a
  list of pixel values.  The numpy channel axis is collapsed into the pixel
  value; `numpy.any` over a batch of thumbnails is modelled literally as
  "some pixel is non-zero".
* The PIL open/resize pipeline (`Image.open`, `Image.resize`,
  `_pad_and_border`) is external library code; its per-file outcome is
  modelled as an oracle stored with the file: either one of the exceptions
  the source catches (`PermissionError` on open, any other exception on open,
  `OSError` on resize) or the resulting padded-and-bordered thumbnail.
* The filesystem is the listing of the scanned directory: an association list
  from the file's full path to its metadata and load outcome.  `os.remove`
  deletes the entry.  Python's stable `sorted(..., key=os.path.getctime)` is
  modelled with a stable insertion sort by the same key.
-/

namespace Faceswap

/-- Pixel buffer of one thumbnail: a list of pixel rows. -/
abbrev Thumb := List (List Nat)

/-- Python slice `xs[-n:]` as used by `_process_samples`: for `n = 0` it is the
whole list (`xs[-0:] = xs[0:]`), otherwise the last `min n (length xs)`
elements. -/
def pyTail (n : Nat) (l : List α) : List α :=
  if n = 0 then l else l.drop (l.length - n)

/-- Per-file outcome of the `Image.open` / `resize` / `_pad_and_border`
pipeline of `_load_images_to_cache` (source lines 728-757): the three caught
failure shapes, or the finished thumbnail. -/
inductive LoadResult where
  | permError
  | openError
  | resizeError
  | ok (thumb : Thumb)
deriving DecidableEq

/-- Thumbnail produced by a load outcome, if it succeeded. -/
def LoadResult.thumb? : LoadResult → Option Thumb
  | .ok t => some t
  | _ => none

/-- Whether a load outcome succeeded. -/
def LoadResult.isOk (r : LoadResult) : Bool := r.thumb?.isSome

/-- Metadata and load behaviour of one file in the scanned directory. -/
structure FileInfo where
  mtime : Nat
  ctime : Nat
  load : LoadResult
deriving DecidableEq

/-- The scanned directory: full path to file info. -/
abbrev Filesystem := List (String × FileInfo)

/-- Value of `os.path.getmtime` for a path. -/
def mtimeOf (fs : Filesystem) (f : String) : Nat :=
  match fs.lookup f with
  | some i => i.mtime
  | none => 0

/-- Value of `os.path.getctime` for a path. -/
def ctimeOf (fs : Filesystem) (f : String) : Nat :=
  match fs.lookup f with
  | some i => i.ctime
  | none => 0

/-- Outcome of opening and resizing a path.  A path missing from the directory
raises `FileNotFoundError` on open, which the source's broad `except` catches,
so it is modelled as `openError`. -/
def loadOf (fs : Filesystem) (f : String) : LoadResult :=
  match fs.lookup f with
  | some i => i.load
  | none => .openError

/-- The `_previewcache` dictionary (source lines 570-573). -/
structure PreviewCache where
  modified : Option Nat
  images : Option (List Thumb)
  filenames : List String
  placeholder : Option Thumb
deriving DecidableEq

/-- The cleared cache installed by `_clear_image_cache`. -/
def empty_preview_cache : PreviewCache :=
  { modified := none, images := none, filenames := [], placeholder := none }

/-- The `numpy.any` truthiness check of `_process_samples` (line 810) on the
batch of new thumbnails: some pixel of some thumbnail is non-zero. -/
def npAny (samples : List Thumb) : Bool :=
  samples.any (fun t => t.any (fun row => row.any (fun px => px != 0)))

/-- `Images._get_newest_filenames` (source lines 669-693).  Takes the current
watermark (`_previewcache["modified"]`) and returns the qualifying files
together with the new watermark. -/
def get_newest_filenames (mtime : String → Nat) (modified : Option Nat)
    (imageFiles : List String) : List String × Option Nat :=
  let retval := match modified with
    | none => imageFiles
    | some m => imageFiles.filter (fun fname => decide (m < mtime fname))
  if retval.isEmpty then (retval, modified)
  else (retval, some ((retval.map mtime).foldl max 0))

/-- `Images._process_samples` (source lines 789-825): append the new
thumbnails and filenames to the cache and keep the trailing
`num_images`-window of both. -/
def process_samples (c : PreviewCache) (samples : List Thumb)
    (filenames : List String) (numImages : Nat) : PreviewCache × Bool :=
  if !npAny samples then (c, false)
  else
    let newFilenames := pyTail numImages (c.filenames ++ filenames)
    let cache := match c.images with
      | none => pyTail numImages samples
      | some cache => pyTail numImages (cache ++ samples)
    ({ c with filenames := newFilenames, images := some cache }, true)

/-- Repeated polls of `_process_samples`, as driven by successive calls of
`_load_images_to_cache`: fold the batches of (thumbnails, filenames) into the
cache. -/
def apply_batches (numImages : Nat) (c : PreviewCache)
    (batches : List (List Thumb × List String)) : PreviewCache :=
  batches.foldl (fun acc b => (process_samples acc b.1 b.2 numImages).1) c

/-- Lower-cased characters of a string (`str.lower()` on the paths handled
here). -/
def toLowerChars (s : String) : List Char := s.data.map Char.toLower

/-- Python `str.endswith` on character lists. -/
def endsWithChars (l suffix : List Char) : Bool :=
  l.drop (l.length - suffix.length) == suffix

/-- The extension allow-list of `Images._get_images` (source line 595):
`f.lower().endswith((".png", ".jpg"))`. -/
def isImageFile (f : String) : Bool :=
  endsWithChars (toLowerChars f) ".png".data
    || endsWithChars (toLowerChars f) ".jpg".data

/-- `Images._get_images` (source lines 575-597) on the listing of the scanned
directory: the image files stored in the folder.  (The missing-directory case
returns the empty listing; it is represented by an empty `Filesystem`.) -/
def get_images (fs : Filesystem) : List String :=
  (fs.map Prod.fst).filter isImageFile

/-- `os.path.join(self._pathoutput, ".gui_preview.jpg")` (source line 618). -/
def guiPreviewPath (pathoutput : String) : String :=
  pathoutput ++ "/" ++ ".gui_preview.jpg"

/-- Source line 623: `[gui_preview] if gui_preview in image_files else
image_files`. -/
def filterToGuiPreview (guiPreview : String) (imageFiles : List String) :
    List String :=
  if imageFiles.contains guiPreview then [guiPreview] else imageFiles

/-- Python's stable `sorted(image_files, key=os.path.getctime)` (source line
726), modelled with a stable insertion sort by the same key. -/
def sortByCtime (fs : Filesystem) (files : List String) : List String :=
  List.insertionSort (fun a b => ctimeOf fs a ≤ ctimeOf fs b) files

/-- The per-file loop of `_load_images_to_cache` (source lines 728-757):
each file either yields a thumbnail (appended to `samples`) or its caught
failure appends the file to `dropped_files`.  The three `except` arms differ
only in their log message. -/
def preview_loop (ld : String → LoadResult) (showFiles : List String) :
    List Thumb × List String :=
  showFiles.foldl
    (fun acc fname =>
      match ld fname with
      | .ok t => (acc.1 ++ [t], acc.2)
      | _ => (acc.1, acc.2 ++ [fname]))
    ([], [])

/-- `num_images` of `_load_images_to_cache` (source line 720): the grid cell
count `(frame_dims[0] // thumbnail_size) * (frame_dims[1] // thumbnail_size)`. -/
def capacity (width height thumbnailSize : Nat) : Nat :=
  (width / thumbnailSize) * (height / thumbnailSize)

/-- `Images._load_images_to_cache` (source lines 695-761). -/
def load_images_to_cache (fs : Filesystem) (c : PreviewCache)
    (imageFiles : List String) (frameDims : Nat × Nat) (thumbnailSize : Nat) :
    PreviewCache × Bool :=
  let numImages := capacity frameDims.1 frameDims.2 thumbnailSize
  if numImages = 0 then (c, false)
  else
    let startIdx :=
      if imageFiles.length > numImages then imageFiles.length - numImages else 0
    let showFiles := (sortByCtime fs imageFiles).drop startIdx
    let res := preview_loop (loadOf fs) showFiles
    process_samples c res.1
      (showFiles.filter (fun fname => !res.2.contains fname)) numImages

/-- `samples.shape[1]` in `_place_previews` (source line 845): the height of
the cached square thumbnails. -/
def thumbSizeOf (samples : List Thumb) : Nat := (samples.headD []).length

/-- `Images._create_placeholder` (source lines 867-882): a black
`size` x `size` canvas with a 1-pixel border of value `0xE5 = 229`. -/
def create_placeholder (size : Nat) : Thumb :=
  (List.range size).map (fun row =>
    (List.range size).map (fun col =>
      if row = 0 || row + 1 = size || col = 0 || col + 1 = size then 229 else 0))

/-- The row-major grid layout of `_place_previews` (source lines 862-863):
`samples[row * cols : (row + 1) * cols]` for each row.  The subsequent
`np.hstack` / `np.vstack` pixel concatenation is external numpy code; the
composite is modelled at thumbnail-cell granularity. -/
def place_samples (samples : List Thumb) (cols rows : Nat) : List (List Thumb) :=
  (List.range rows).map (fun row => (samples.drop (row * cols)).take cols)

/-- `Images._place_previews` (source lines 827-865).  Returns the updated
cache (the placeholder is created lazily on first use) and the composite, or
`none` when there are no cached thumbnails or zero grid cells.  A cache larger
than the cell count would make `remainder` negative and `np.concatenate`
raise in the source; that path is outside the verified claims. -/
def place_previews (c : PreviewCache) (frameDims : Nat × Nat) :
    PreviewCache × Option (List (List Thumb)) :=
  match c.images with
  | none => (c, none)
  | some samples =>
    let numImages := samples.length
    let thumbnailSize := thumbSizeOf samples
    let c1 := if c.placeholder.isNone
      then { c with placeholder := some (create_placeholder thumbnailSize) }
      else c
    let cols := frameDims.1 / thumbnailSize
    let rows := frameDims.2 / thumbnailSize
    if cols = 0 ∨ rows = 0 then (c1, none)
    else
      let remainder := cols * rows - numImages
      let padded := if remainder ≠ 0
        then samples ++
          List.replicate remainder (c1.placeholder.getD (create_placeholder thumbnailSize))
        else samples
      (c1, some (place_samples padded cols rows))

/-- The mutable state touched by `Images.load_latest_preview`: the preview
cache, the composed output, the scanned directory and the output path. -/
structure ImagesState where
  previewcache : PreviewCache
  previewoutput : Option (List (List Thumb))
  fs : Filesystem
  pathoutput : String
deriving DecidableEq

/-- `Images.load_latest_preview` (source lines 599-647), for the non-batch
path (`_batch_mode` is false, so the scanned directory is `_pathoutput`). -/
def load_latest_preview (st : ImagesState) (thumbnailSize : Nat)
    (frameDims : Nat × Nat) : ImagesState :=
  let imageFiles := get_images st.fs
  let guiPreview := guiPreviewPath st.pathoutput
  if imageFiles.isEmpty
      || (imageFiles.length == 1 && !imageFiles.contains guiPreview) then st
  else
    let imageFiles := filterToGuiPreview guiPreview imageFiles
    let scanned := get_newest_filenames (mtimeOf st.fs)
      st.previewcache.modified imageFiles
    let imageFiles := scanned.1
    let st1 : ImagesState :=
      { st with previewcache := { st.previewcache with modified := scanned.2 } }
    if imageFiles.isEmpty then st1
    else
      let loaded := load_images_to_cache st1.fs st1.previewcache imageFiles
        frameDims thumbnailSize
      let st2 : ImagesState := { st1 with previewcache := loaded.1 }
      if !loaded.2 then
        if imageFiles.contains guiPreview then
          { st2 with previewcache := { st2.previewcache with modified := none } }
        else st2
      else
        let st3 : ImagesState := if imageFiles == [guiPreview]
          then { st2 with fs := st2.fs.filter (fun p => p.1 != guiPreview) }
          else st2
        let placed := place_previews st3.previewcache frameDims
        let st4 : ImagesState := { st3 with previewcache := placed.1 }
        match placed.2 with
        | none => { st4 with previewoutput := none }
        | some grid => { st4 with previewoutput := some grid }

/-- Outcome of the `try` body of `load_training_preview` (source lines
902-907) for one image file.  The stored entry (`[Image.open(img), None,
modified]`, later resized) is abstracted to an opaque payload.  If
`resize_image` raises after the dictionary write, the entry is already
stored when the handler runs. -/
inductive TrainLoad where
  | failOpen
  | failResize (entry : Nat)
  | ok (entry : Nat)
deriving DecidableEq

/-- State touched by `load_training_preview`: the `_previewtrain` dictionary
(insertion-ordered, name to payload), the module-wide `_errcount`, and the
messages printed when a stream is given up on. -/
structure TrainState where
  previewtrain : List (String × Nat)
  errcount : Nat
  messages : List String
deriving DecidableEq

/-- Python `dict` assignment `d[k] = v`: update in place, or append a new
key. -/
def assocSet (l : List (String × Nat)) (k : String) (v : Nat) :
    List (String × Nat) :=
  if l.any (fun p => p.1 == k)
  then l.map (fun p => if p.1 == k then (k, v) else p)
  else l ++ [(k, v)]

/-- Python `del d[k]` when the key is present. -/
def assocErase (l : List (String × Nat)) (k : String) : List (String × Nat) :=
  l.filter (fun p => p.1 != k)

/-- One iteration of the `load_training_preview` loop (source lines 897-919).
`.error` models the uncaught `KeyError` that `del self._previewtrain[name]`
raises when the stream never had a stored entry. -/
def load_training_step (nameOf : String → String) (ld : String → TrainLoad)
    (st : TrainState) (img : String) : Except String TrainState :=
  let name := nameOf img
  match ld img with
  | .ok e =>
      .ok { st with previewtrain := assocSet st.previewtrain name e,
                    errcount := 0 }
  | .failOpen =>
      if st.errcount < 10 then .ok { st with errcount := st.errcount + 1 }
      else if (st.previewtrain.lookup name).isSome then
        .ok { st with previewtrain := assocErase st.previewtrain name,
                      messages := st.messages ++ [name] }
      else .error name
  | .failResize e =>
      let st1 : TrainState :=
        { st with previewtrain := assocSet st.previewtrain name e }
      if st1.errcount < 10 then .ok { st1 with errcount := st1.errcount + 1 }
      else
        .ok { st1 with previewtrain := assocErase st1.previewtrain name,
                       messages := st1.messages ++ [name] }

/-- `Images.load_training_preview` (source lines 884-919).  `nameOf` is the
label extraction from the file name (basename, strip extension, text after
the last underscore, title-cased); `ld` is the per-file outcome of the `try`
body. -/
def load_training_preview (nameOf : String → String) (ld : String → TrainLoad)
    (st : TrainState) (imageFiles : List String) : Except String TrainState :=
  if imageFiles.isEmpty then .ok { st with previewtrain := [] }
  else imageFiles.foldlM (load_training_step nameOf ld) st

/-- Concrete directory fixture for exercising a refresh whose new files all
fail: an older, perfectly loadable image (modification time 1, already
displayed) next to a newer file (modification time 5) whose load raises. -/
def c5fsW : Filesystem :=
  [("o/a.png", ⟨1, 1, .ok [[9]]⟩), ("o/b.jpg", ⟨5, 5, .permError⟩)]

/-- Concrete state fixture around `c5fsW`: the watermark sits at 1, so only
the failing newer file qualifies for the next scan, while the cache and
composed output still show the older file. -/
def c5stW : ImagesState where
  previewcache :=
    { modified := some 1, images := some [[[9]]], filenames := ["o/a.png"],
      placeholder := none }
  previewoutput := some [[[[9]]]]
  fs := c5fsW
  pathoutput := "o"

/-- Concrete directory fixture containing the reserved single-preview file
(loadable) next to an ordinary image. -/
def c3fsW : Filesystem :=
  [("o/.gui_preview.jpg", ⟨5, 5, .ok [[7]]⟩), ("o/a.png", ⟨1, 1, .ok [[3]]⟩)]

/-- Concrete state fixture around `c3fsW` with a cleared cache. -/
def c3stW : ImagesState where
  previewcache := empty_preview_cache
  previewoutput := none
  fs := c3fsW
  pathoutput := "o"

/-- Concrete directory fixture where the reserved single-preview file fails
to load. -/
def c4fsW : Filesystem :=
  [("o/.gui_preview.jpg", ⟨5, 5, .permError⟩), ("o/a.png", ⟨1, 1, .ok [[3]]⟩)]

/-- Concrete state fixture around `c4fsW` with a cleared cache. -/
def c4stW : ImagesState where
  previewcache := empty_preview_cache
  previewoutput := none
  fs := c4fsW
  pathoutput := "o"

/-- The observable state of a `LongRunningTask` (source lines 1339-1426):
the `complete` event, the captured `sys.exc_info()` (abstracted to an opaque
error value carrying the original identity and traceback), and the result
queue. -/
structure TaskState (α ε : Type) where
  complete : Bool
  err : Option ε
  queue : List α
deriving DecidableEq

/-- State right after `__init__` (source lines 1357-1376): the event unset,
no captured error, the queue empty. -/
def initial_task_state (α ε : Type) : TaskState α ε :=
  { complete := false, err := none, queue := [] }

/-- What the target callable does when `run` executes it. -/
inductive TaskOutcome (α ε : Type) where
  | ok (v : α)
  | raised (e : ε)
deriving DecidableEq

/-- `LongRunningTask.run` (source lines 1385-1401): a normal return is put on
the queue, an exception is captured in `err`; either way `complete` is set in
the `finally` block.  `none` is a task constructed without a target. -/
def run_task (outcome : Option (TaskOutcome α ε)) : TaskState α ε :=
  match outcome with
  | none => { complete := true, err := none, queue := [] }
  | some (.ok v) => { complete := true, err := none, queue := [v] }
  | some (.raised e) => { complete := true, err := some e, queue := [] }

/-- Result of one `get_result` call: the early-return `None`, a re-raised
captured exception, a value from the queue, or a block on `Queue.get` (only
reachable when the task completed without putting a result). -/
inductive GetResult (α ε : Type) where
  | notReady
  | raised (e : ε)
  | value (v : α)
  | blocked
deriving DecidableEq

/-- `LongRunningTask.get_result` (source lines 1403-1426). -/
def get_result (s : TaskState α ε) : GetResult α ε :=
  if !s.complete then .notReady
  else
    match s.err with
    | some e => .raised e
    | none =>
      match s.queue with
      | v :: _ => .value v
      | [] => .blocked

/-! Helper lemmas about `pyTail` and `foldl max`. -/

lemma pyTail_append (n : Nat) (xs ys : List α) :
    pyTail n (pyTail n xs ++ ys) = pyTail n (xs ++ ys) := by
  unfold pyTail
  by_cases hn : n = 0
  · simp [hn]
  · simp only [if_neg hn]
    rw [← List.drop_append_of_le_length (by omega)]
    rw [List.drop_drop]
    congr 1
    simp only [List.length_drop, List.length_append]
    omega

lemma pyTail_length_of_ne_zero (n : Nat) (l : List α) (hn : n ≠ 0) :
    (pyTail n l).length = min n l.length := by
  unfold pyTail
  simp only [if_neg hn, List.length_drop]
  omega

lemma pyTail_eq_drop (n : Nat) (l : List α) (hn : n ≠ 0) :
    pyTail n l = l.drop (l.length - n) := by
  unfold pyTail
  simp [hn]

lemma le_foldl_max (l : List Nat) (a : Nat) : a ≤ l.foldl max a := by
  induction l generalizing a with
  | nil => simp
  | cons x xs ih =>
      simp only [List.foldl_cons]
      exact le_trans (Nat.le_max_left a x) (ih (max a x))

lemma mem_le_foldl_max : ∀ (l : List Nat) (a x : Nat), x ∈ l → x ≤ l.foldl max a := by
  intro l
  induction l with
  | nil => intro a x hx; cases hx
  | cons y ys ih =>
      intro a x hx
      simp only [List.foldl_cons]
      rcases List.mem_cons.mp hx with h | h
      · subst h
        exact le_trans (Nat.le_max_right a x) (le_foldl_max ys (max a x))
      · exact ih (max a y) x h

lemma foldl_max_mem : ∀ (l : List Nat) (a : Nat),
    l.foldl max a = a ∨ l.foldl max a ∈ l := by
  intro l
  induction l with
  | nil => intro a; exact Or.inl rfl
  | cons x xs ih =>
      intro a
      simp only [List.foldl_cons]
      rcases ih (max a x) with h | h
      · rcases max_choice a x with hm | hm
        · exact Or.inl (h.trans hm)
        · exact Or.inr (List.mem_cons.mpr (Or.inl (h.trans hm)))
      · exact Or.inr (List.mem_cons.mpr (Or.inr h))

lemma foldl_max_zero_mem (l : List Nat) (hl : l ≠ []) : l.foldl max 0 ∈ l := by
  rcases foldl_max_mem l 0 with h | h
  · cases l with
    | nil => exact absurd rfl hl
    | cons x xs =>
        have hx : x ≤ 0 := h ▸ mem_le_foldl_max (x :: xs) 0 x (List.mem_cons_self x xs)
        have : x = 0 := Nat.le_zero.mp hx
        rw [h, ← this]
        exact List.mem_cons_self x xs
  · exact h

lemma process_samples_ok (c : PreviewCache) (s : List Thumb) (f : List String)
    (n : Nat) (h : npAny s = true) :
    process_samples c s f n =
      ({ c with images := some (pyTail n (c.images.getD [] ++ s)),
                filenames := pyTail n (c.filenames ++ f) }, true) := by
  unfold process_samples
  rw [h]
  cases himg : c.images <;> simp [himg]

lemma apply_batches_ok (n : Nat) (batches : List (List Thumb × List String)) :
    ∀ c : PreviewCache, batches ≠ [] → (∀ b ∈ batches, npAny b.1 = true) →
      apply_batches n c batches =
        { c with
          images := some (pyTail n (c.images.getD [] ++ (batches.map Prod.fst).flatten)),
          filenames := pyTail n (c.filenames ++ (batches.map Prod.snd).flatten) } := by
  induction batches with
  | nil => intro c hne _; exact absurd rfl hne
  | cons b bs ih =>
      intro c _ hok
      have hb : npAny b.1 = true := hok b (List.mem_cons_self _ _)
      by_cases hbs : bs = []
      · subst hbs
        simp only [apply_batches, List.foldl_cons, List.foldl_nil,
          process_samples_ok c b.1 b.2 n hb, List.map_cons, List.map_nil,
          List.flatten_cons, List.flatten_nil, List.append_nil]
      · have hok' : ∀ x ∈ bs, npAny x.1 = true :=
          fun x hx => hok x (List.mem_cons_of_mem _ hx)
        have hstep :
            apply_batches n c (b :: bs) =
              apply_batches n
                { c with images := some (pyTail n (c.images.getD [] ++ b.1)),
                         filenames := pyTail n (c.filenames ++ b.2) } bs := by
          simp only [apply_batches, List.foldl_cons,
            process_samples_ok c b.1 b.2 n hb]
        rw [hstep, ih _ hbs hok']
        simp only [List.map_cons, List.flatten_cons, Option.getD_some]
        congr 1
        · rw [pyTail_append, List.append_assoc]
        · rw [pyTail_append, List.append_assoc]

lemma gnf_fst (mtime : String → Nat) (wm : Option Nat) (files : List String) :
    (get_newest_filenames mtime wm files).1
      = match wm with
        | none => files
        | some m => files.filter (fun fname => decide (m < mtime fname)) := by
  simp only [get_newest_filenames]
  split <;> rfl

lemma gnf_fst_subset (mtime : String → Nat) (wm : Option Nat)
    (files : List String) :
    ∀ f ∈ (get_newest_filenames mtime wm files).1, f ∈ files := by
  intro f hf
  rw [gnf_fst] at hf
  cases wm with
  | none => exact hf
  | some m => exact (List.mem_filter.mp hf).1

lemma gnf_snd_of_empty (mtime : String → Nat) (wm : Option Nat)
    (files : List String) (h : (get_newest_filenames mtime wm files).1 = []) :
    (get_newest_filenames mtime wm files).2 = wm := by
  have hr : (match wm with
      | none => files
      | some m => files.filter (fun fname => decide (m < mtime fname))) = [] := by
    rw [← gnf_fst mtime wm files]
    exact h
  simp only [get_newest_filenames]
  rw [if_pos (by rw [hr]; rfl)]

lemma gnf_snd_of_ne (mtime : String → Nat) (wm : Option Nat)
    (files : List String) (h : (get_newest_filenames mtime wm files).1 ≠ []) :
    (get_newest_filenames mtime wm files).2
      = some (((get_newest_filenames mtime wm files).1.map mtime).foldl max 0) := by
  have hr : (match wm with
      | none => files
      | some m => files.filter (fun fname => decide (m < mtime fname))) ≠ [] := by
    rw [← gnf_fst mtime wm files]
    exact h
  rw [gnf_fst mtime wm files]
  simp only [get_newest_filenames]
  rw [if_neg (fun hc => hr (List.isEmpty_iff.mp hc))]

lemma LoadResult.thumb?_ok (t : Thumb) : (LoadResult.ok t).thumb? = some t := rfl

lemma LoadResult.thumb?_permError : LoadResult.permError.thumb? = none := rfl

lemma LoadResult.thumb?_openError : LoadResult.openError.thumb? = none := rfl

lemma LoadResult.thumb?_resizeError : LoadResult.resizeError.thumb? = none := rfl

lemma LoadResult.isOk_ok (t : Thumb) : (LoadResult.ok t).isOk = true := rfl

lemma LoadResult.isOk_permError : LoadResult.permError.isOk = false := rfl

lemma LoadResult.isOk_openError : LoadResult.openError.isOk = false := rfl

lemma LoadResult.isOk_resizeError : LoadResult.resizeError.isOk = false := rfl

lemma preview_loop_go (ld : String → LoadResult) :
    ∀ (files : List String) (s : List Thumb) (d : List String),
      files.foldl
        (fun acc fname =>
          match ld fname with
          | .ok t => (acc.1 ++ [t], acc.2)
          | _ => (acc.1, acc.2 ++ [fname])) (s, d)
      = (s ++ files.filterMap (fun f => (ld f).thumb?),
         d ++ files.filter (fun f => !(ld f).isOk)) := by
  intro files
  induction files with
  | nil => intro s d; simp
  | cons f t ih =>
      intro s d
      simp only [List.foldl_cons]
      cases hld : ld f with
      | ok th =>
          simp [hld, ih, LoadResult.thumb?, LoadResult.isOk,
            List.filterMap_cons, List.filter_cons]
      | permError =>
          simp [hld, ih, LoadResult.thumb?, LoadResult.isOk,
            List.filterMap_cons, List.filter_cons]
      | openError =>
          simp [hld, ih, LoadResult.thumb?, LoadResult.isOk,
            List.filterMap_cons, List.filter_cons]
      | resizeError =>
          simp [hld, ih, LoadResult.thumb?, LoadResult.isOk,
            List.filterMap_cons, List.filter_cons]

lemma preview_loop_eq (ld : String → LoadResult) (files : List String) :
    preview_loop ld files
      = (files.filterMap (fun f => (ld f).thumb?),
         files.filter (fun f => !(ld f).isOk)) := by
  unfold preview_loop
  rw [preview_loop_go]
  simp

lemma kept_filenames (ld : String → LoadResult) (files : List String) :
    files.filter
        (fun f => !((files.filter (fun g => !(ld g).isOk)).contains f))
      = files.filter (fun f => (ld f).isOk) := by
  apply List.filter_congr
  intro x hx
  by_cases h : (ld x).isOk
  · simp [h, List.elem_iff, List.mem_filter]
  · simp only [Bool.not_eq_true] at h
    simp [h, List.elem_iff, List.mem_filter, hx]

lemma length_filterMap_thumb (ld : String → LoadResult) (l : List String) :
    (l.filterMap (fun f => (ld f).thumb?)).length
      = (l.filter (fun f => (ld f).isOk)).length := by
  induction l with
  | nil => rfl
  | cons a t ih =>
      cases h : ld a with
      | ok th =>
          simp [List.filterMap_cons, List.filter_cons, h,
            LoadResult.thumb?_ok, LoadResult.isOk_ok, ih]
      | permError =>
          simp [List.filterMap_cons, List.filter_cons, h,
            LoadResult.thumb?_permError, LoadResult.isOk_permError, ih]
      | openError =>
          simp [List.filterMap_cons, List.filter_cons, h,
            LoadResult.thumb?_openError, LoadResult.isOk_openError, ih]
      | resizeError =>
          simp [List.filterMap_cons, List.filter_cons, h,
            LoadResult.thumb?_resizeError, LoadResult.isOk_resizeError, ih]

lemma lookup_filter_ne {β : Type} (l : List (String × β)) (k : String) :
    (l.filter (fun p => p.1 != k)).lookup k = none := by
  induction l with
  | nil => rfl
  | cons p t ih =>
      obtain ⟨a, b⟩ := p
      by_cases hp : a = k
      · simpa [List.filter_cons, hp] using ih
      · have hne : (a == k) = false := beq_eq_false_iff_ne.mpr hp
        have hne2 : (k == a) = false := beq_eq_false_iff_ne.mpr (Ne.symm hp)
        have hfc : ((a, b) :: t).filter (fun p => p.1 != k)
            = (a, b) :: t.filter (fun p => p.1 != k) := by
          simp [List.filter_cons, hne, hp]
        rw [hfc]
        simp only [List.lookup, hne2]
        exact ih

lemma mem_sortByCtime (fs : Filesystem) (files : List String) (f : String) :
    f ∈ sortByCtime fs files ↔ f ∈ files :=
  (List.perm_insertionSort _ files).mem_iff

lemma load_images_to_cache_all_fail (fs : Filesystem) (c : PreviewCache)
    (files : List String) (dims : Nat × Nat) (ts : Nat)
    (hfail : ∀ f ∈ files, (loadOf fs f).isOk = false) :
    load_images_to_cache fs c files dims ts = (c, false) := by
  unfold load_images_to_cache
  by_cases hnum : capacity dims.1 dims.2 ts = 0
  · simp [hnum]
  · simp only [if_neg hnum, preview_loop_eq]
    have hwin : ∀ f ∈ (sortByCtime fs files).drop
        (if files.length > capacity dims.1 dims.2 ts
         then files.length - capacity dims.1 dims.2 ts else 0),
        (loadOf fs f).isOk = false := by
      intro f hf
      exact hfail f ((mem_sortByCtime fs files f).mp (List.drop_subset _ _ hf))
    have hempty : ((sortByCtime fs files).drop
        (if files.length > capacity dims.1 dims.2 ts
         then files.length - capacity dims.1 dims.2 ts else 0)).filterMap
          (fun f => (loadOf fs f).thumb?) = [] := by
      rw [List.filterMap_eq_nil_iff]
      intro f hf
      have := hwin f hf
      unfold LoadResult.isOk at this
      exact Option.not_isSome_iff_eq_none.mp (by simp [this])
    rw [hempty]
    simp [process_samples, npAny]

lemma getD_place_samples (samples : List Thumb) (cols rows r j : Nat)
    (hr : r < rows) (hj : j < cols) :
    ((place_samples samples cols rows).getD r []).getD j []
      = samples.getD (r * cols + j) [] := by
  unfold place_samples
  rw [List.getD_eq_getElem?_getD]
  rw [List.getD_eq_getElem?_getD]
  rw [List.getElem?_map, List.getElem?_range hr]
  simp only [Option.map_some', Option.getD_some]
  rw [List.getElem?_take, if_pos hj, List.getElem?_drop,
    List.getD_eq_getElem?_getD]

lemma getD_append_replicate (samples : List Thumb) (ph : Thumb) (pad i : Nat) :
    (samples ++ List.replicate pad ph).getD i []
      = if i < samples.length then samples.getD i []
        else if i < samples.length + pad then ph else [] := by
  rw [List.getD_eq_getElem?_getD]
  by_cases h1 : i < samples.length
  · rw [List.getElem?_append_left h1, if_pos h1, List.getD_eq_getElem?_getD]
  · rw [List.getElem?_append_right (Nat.le_of_not_lt h1), List.getElem?_replicate,
      if_neg h1]
    by_cases h2 : i < samples.length + pad
    · rw [if_pos (by omega), if_pos h2]
      rfl
    · rw [if_neg (by omega), if_neg h2]
      rfl

lemma placeholder_resolved (c : PreviewCache) (tsz : Nat) :
    (if c.placeholder.isNone
      then { c with placeholder := some (create_placeholder tsz) }
      else c).placeholder
      = some (c.placeholder.getD (create_placeholder tsz)) := by
  cases hc : c.placeholder <;> simp [hc]

/-- Claim C1: for every poll, `_get_newest_filenames` returns all listed
image files when the stored watermark is unset; when it is set it returns
exactly the files whose modification time is strictly greater than the
watermark; when no file qualifies it returns the empty sequence and leaves
the watermark unchanged; otherwise it updates the watermark to the maximum
modification time among the returned files. -/
theorem c1_get_newest_filenames (mtime : String → Nat) (wm : Option Nat)
    (m : Nat) (files : List String) :
    (get_newest_filenames mtime none files).1 = files
    ∧ (get_newest_filenames mtime (some m) files).1
        = files.filter (fun fname => decide (m < mtime fname))
    ∧ ((get_newest_filenames mtime wm files).1 = [] →
        (get_newest_filenames mtime wm files).2 = wm)
    ∧ ((get_newest_filenames mtime wm files).1 ≠ [] →
        ∃ M, (get_newest_filenames mtime wm files).2 = some M
          ∧ M ∈ (get_newest_filenames mtime wm files).1.map mtime
          ∧ ∀ fname ∈ (get_newest_filenames mtime wm files).1,
              mtime fname ≤ M) := by
  refine ⟨gnf_fst mtime none files, gnf_fst mtime (some m) files,
    gnf_snd_of_empty mtime wm files, ?_⟩
  intro h
  refine ⟨((get_newest_filenames mtime wm files).1.map mtime).foldl max 0,
    gnf_snd_of_ne mtime wm files h, ?_, ?_⟩
  · apply foldl_max_zero_mem
    simp only [ne_eq, List.map_eq_nil_iff]
    exact h
  · intro fname hf
    exact mem_le_foldl_max _ 0 _ (List.mem_map_of_mem mtime hf)

/-- Witness for C1 at a concrete input: with watermark 3 and files of
modification times 3 and 7, only the strictly newer file is returned;
with watermark 9 nothing qualifies and the watermark is untouched. -/
theorem c1_get_newest_filenames_witness :
    (get_newest_filenames (fun f => if f == "b.png" then 7 else 3) (some 3)
        ["a.png", "b.png"]).1 = ["b.png"]
    ∧ (get_newest_filenames (fun f => if f == "b.png" then 7 else 3) (some 9)
        ["a.png", "b.png"]).1 = []
    ∧ (get_newest_filenames (fun f => if f == "b.png" then 7 else 3) (some 9)
        ["a.png", "b.png"]).2 = some 9 := by
  refine ⟨?_, by decide, ?_⟩
  · exact ((c1_get_newest_filenames (fun f => if f == "b.png" then 7 else 3)
      (some 3) 3 ["a.png", "b.png"]).2.1).trans (by decide)
  · exact (c1_get_newest_filenames (fun f => if f == "b.png" then 7 else 3)
      (some 9) 9 ["a.png", "b.png"]).2.2.1 (by decide)

/-- Claim C2: `_process_samples` never leaves the cache longer than the
capacity; after successive appends the cache and the parallel filename list
are exactly the trailing capacity-window of everything appended (in original
relative order, oldest evicted first), and the cache length is
`min capacity total`. -/
theorem c2_append_and_trim (num : Nat) (c0 : PreviewCache)
    (batches : List (List Thumb × List String))
    (h1 : 1 ≤ num) (h2 : batches ≠ [])
    (h3 : ∀ b ∈ batches, npAny b.1 = true) :
    (apply_batches num c0 batches).images
        = some ((c0.images.getD [] ++ (batches.map Prod.fst).flatten).drop
            ((c0.images.getD [] ++ (batches.map Prod.fst).flatten).length - num))
    ∧ (apply_batches num c0 batches).filenames
        = (c0.filenames ++ (batches.map Prod.snd).flatten).drop
            ((c0.filenames ++ (batches.map Prod.snd).flatten).length - num)
    ∧ ((apply_batches num c0 batches).images.getD []).length
        = min num (c0.images.getD [] ++ (batches.map Prod.fst).flatten).length
    ∧ ((apply_batches num c0 batches).images.getD []).length ≤ num
    ∧ (apply_batches num c0 batches).filenames.length ≤ num := by
  have hn : num ≠ 0 := by omega
  rw [apply_batches_ok num batches c0 h2 h3]
  refine ⟨?_, ?_, ?_, ?_, ?_⟩
  · simp only [pyTail_eq_drop _ _ hn]
  · simp only [pyTail_eq_drop _ _ hn]
  · simp only [Option.getD_some, pyTail_length_of_ne_zero _ _ hn]
  · simp only [Option.getD_some, pyTail_length_of_ne_zero _ _ hn]
    omega
  · simp only [pyTail_length_of_ne_zero _ _ hn]
    omega

/-- Witness for C2 at the spec's example: appending five thumbnails in three
batches with capacity 3 leaves exactly the last three, in original relative
order, with the filename list trimmed to the same window. -/
theorem c2_append_and_trim_witness :
    (1 : Nat) ≤ 3
    ∧ (apply_batches 3 empty_preview_cache
        [([[[1]], [[2]]], ["a", "b"]), ([[[3]]], ["c"]),
         ([[[4]], [[5]]], ["d", "e"])]).images
        = some [[[3]], [[4]], [[5]]]
    ∧ (apply_batches 3 empty_preview_cache
        [([[[1]], [[2]]], ["a", "b"]), ([[[3]]], ["c"]),
         ([[[4]], [[5]]], ["d", "e"])]).filenames
        = ["c", "d", "e"] := by
  refine ⟨by decide, ?_, ?_⟩
  · exact ((c2_append_and_trim 3 empty_preview_cache
      [([[[1]], [[2]]], ["a", "b"]), ([[[3]]], ["c"]),
       ([[[4]], [[5]]], ["d", "e"])]
      (by decide) (by decide) (by decide)).1).trans (by decide)
  · exact ((c2_append_and_trim 3 empty_preview_cache
      [([[[1]], [[2]]], ["a", "b"]), ([[[3]]], ["c"]),
       ([[[4]], [[5]]], ["d", "e"])]
      (by decide) (by decide) (by decide)).2.1).trans (by decide)

/-- Claim C10: `LongRunningTask.get_result` called before completion returns
the not-ready value immediately; called after completion of a target that
raised, it re-raises the captured exception with its original identity;
called after normal completion it returns the target's return value. -/
theorem c10_get_result (α ε : Type) (e : ε) (v : α) (q : List α)
    (er : Option ε) :
    get_result ({ complete := false, err := er, queue := q } : TaskState α ε)
        = GetResult.notReady
    ∧ get_result (run_task (some (TaskOutcome.raised e)) : TaskState α ε)
        = GetResult.raised e
    ∧ get_result (run_task (some (TaskOutcome.ok v)) : TaskState α ε)
        = GetResult.value v :=
  ⟨rfl, rfl, rfl⟩

/-- Witness for C10 at concrete values. -/
theorem c10_get_result_witness :
    get_result ({ complete := false, err := none, queue := [] }
        : TaskState Nat Nat) = GetResult.notReady
    ∧ get_result (run_task (some (TaskOutcome.raised (5 : Nat)))
        : TaskState Nat Nat) = GetResult.raised 5
    ∧ get_result (run_task (some (TaskOutcome.ok (7 : Nat)))
        : TaskState Nat Nat) = GetResult.value 7 :=
  c10_get_result Nat Nat 5 7 [] none

/-- Claim C6: the capacity is the integer grid cell count
`(width // thumbnail_size) * (height // thumbnail_size)` and is non-negative;
a region smaller than one thumbnail in either dimension gives capacity 0,
`_place_previews` then returns none, and `_load_images_to_cache` reports
nothing to display (state unchanged, no error). -/
theorem c6_capacity_zero_region (w h ts : Nat) (fs : Filesystem)
    (c : PreviewCache) (files : List String) (samples : List Thumb)
    (hts : 0 < ts) (hsmall : w < ts ∨ h < ts)
    (himg : c.images = some samples) (hsz : thumbSizeOf samples = ts) :
    0 ≤ capacity w h ts
    ∧ capacity w h ts = (w / ts) * (h / ts)
    ∧ capacity w h ts = 0
    ∧ (place_previews c (w, h)).2 = none
    ∧ load_images_to_cache fs c files (w, h) ts = (c, false) := by
  have hdiv : w / ts = 0 ∨ h / ts = 0 := by
    rcases hsmall with hw | hh
    · exact Or.inl (Nat.div_eq_of_lt hw)
    · exact Or.inr (Nat.div_eq_of_lt hh)
  have hcap : capacity w h ts = 0 := by
    unfold capacity
    rcases hdiv with h0 | h0 <;> simp [h0]
  have hcap2 : capacity (w, h).1 (w, h).2 ts = 0 := hcap
  refine ⟨Nat.zero_le _, rfl, hcap, ?_, ?_⟩
  · simp only [place_previews, himg, hsz]
    split
    · rfl
    · rename_i hcond
      exact absurd hdiv hcond
  · simp [load_images_to_cache, hcap2]

/-- Witness for C6: a 1 x 4 region with 2 x 2 thumbnails has capacity 0 and
the compositor returns none. -/
theorem c6_capacity_zero_region_witness :
    (0 : Nat) < 2 ∧ ((1 : Nat) < 2 ∨ (4 : Nat) < 2)
    ∧ capacity 1 4 2 = 0
    ∧ (place_previews
        { modified := none, images := some [[[5, 5], [5, 5]]],
          filenames := ["x"], placeholder := none } (1, 4)).2 = none
    ∧ load_images_to_cache []
        { modified := none, images := some [[[5, 5], [5, 5]]],
          filenames := ["x"], placeholder := none } [] (1, 4) 2
        = ({ modified := none, images := some [[[5, 5], [5, 5]]],
             filenames := ["x"], placeholder := none }, false) := by
  have h := c6_capacity_zero_region 1 4 2 []
    { modified := none, images := some [[[5, 5], [5, 5]]],
      filenames := ["x"], placeholder := none } [] [[[5, 5], [5, 5]]]
    (by decide) (Or.inl (by decide)) rfl (by decide)
  exact ⟨by decide, Or.inl (by decide), h.2.2.1, h.2.2.2.1, h.2.2.2.2⟩

/-- Claim C9: `load_training_preview` catches each per-image read failure;
while the error counter is below 10 a failure just increments the counter
(the stream stays cached and is retried on the next poll), once the bound is
exceeded the stream's cache entry is removed and an error message is
surfaced, and any successful load stores the entry and resets the counter to
zero. -/
theorem c9_training_error_counter (nameOf : String → String)
    (ld : String → TrainLoad) (st : TrainState) (f : String) (e : Nat) :
    (ld f = TrainLoad.ok e →
      load_training_preview nameOf ld st [f]
        = Except.ok { st with
            previewtrain := assocSet st.previewtrain (nameOf f) e,
            errcount := 0 })
    ∧ (ld f = TrainLoad.failOpen → st.errcount < 10 →
        load_training_preview nameOf ld st [f]
          = Except.ok { st with errcount := st.errcount + 1 })
    ∧ (ld f = TrainLoad.failOpen → 10 ≤ st.errcount →
        (st.previewtrain.lookup (nameOf f)).isSome = true →
        load_training_preview nameOf ld st [f]
          = Except.ok { st with
              previewtrain := assocErase st.previewtrain (nameOf f),
              messages := st.messages ++ [nameOf f] })
    ∧ (assocErase st.previewtrain (nameOf f)).lookup (nameOf f) = none := by
  refine ⟨?_, ?_, ?_, lookup_filter_ne st.previewtrain (nameOf f)⟩
  · intro h
    simp [load_training_preview, load_training_step, List.foldlM, h]
  · intro h hlt
    simp [load_training_preview, load_training_step, List.foldlM, h, hlt]
  · intro h hge hmem
    simp [load_training_preview, load_training_step, List.foldlM, h,
      Nat.not_lt_of_le hge, hmem]

/-- Witness for C9 at concrete states: a success resets the counter to 0, a
failure below the bound increments it leaving the cache alone, and a failure
at the bound drops the entry and surfaces the stream name. -/
theorem c9_training_error_counter_witness :
    load_training_preview (fun _ => "A") (fun _ => TrainLoad.ok 5)
        ⟨[("A", 1)], 3, []⟩ ["p/x_a.png"] = Except.ok ⟨[("A", 5)], 0, []⟩
    ∧ load_training_preview (fun _ => "A") (fun _ => TrainLoad.failOpen)
        ⟨[("A", 1)], 3, []⟩ ["p/x_a.png"] = Except.ok ⟨[("A", 1)], 4, []⟩
    ∧ load_training_preview (fun _ => "A") (fun _ => TrainLoad.failOpen)
        ⟨[("A", 1)], 10, []⟩ ["p/x_a.png"] = Except.ok ⟨[], 10, ["A"]⟩ := by
  refine ⟨?_, ?_, ?_⟩
  · exact ((c9_training_error_counter (fun _ => "A") (fun _ => TrainLoad.ok 5)
      ⟨[("A", 1)], 3, []⟩ "p/x_a.png" 5).1 rfl).trans rfl
  · exact ((c9_training_error_counter (fun _ => "A")
      (fun _ => TrainLoad.failOpen) ⟨[("A", 1)], 3, []⟩ "p/x_a.png" 5).2.1
      rfl (by decide)).trans rfl
  · exact ((c9_training_error_counter (fun _ => "A")
      (fun _ => TrainLoad.failOpen) ⟨[("A", 1)], 10, []⟩ "p/x_a.png" 5).2.2.1
      rfl (by decide) (by decide)).trans rfl

/-- Claim C8: every per-file load failure during a refresh is caught and the
file silently dropped: `_load_images_to_cache` hands `_process_samples`
exactly the thumbnails of the successfully loaded files of the display
window, the filename list keeps exactly those same files, and the two lists
pair up one-to-one.  Failures never escape (the function is total by
construction). -/
theorem c8_per_file_drop (fs : Filesystem) (c : PreviewCache)
    (files : List String) (dims : Nat × Nat) (ts : Nat)
    (hnum : capacity dims.1 dims.2 ts ≠ 0) :
    load_images_to_cache fs c files dims ts
      = process_samples c
          (((sortByCtime fs files).drop
              (if files.length > capacity dims.1 dims.2 ts
               then files.length - capacity dims.1 dims.2 ts else 0)).filterMap
            (fun f => (loadOf fs f).thumb?))
          (((sortByCtime fs files).drop
              (if files.length > capacity dims.1 dims.2 ts
               then files.length - capacity dims.1 dims.2 ts else 0)).filter
            (fun f => (loadOf fs f).isOk))
          (capacity dims.1 dims.2 ts)
    ∧ (((sortByCtime fs files).drop
          (if files.length > capacity dims.1 dims.2 ts
           then files.length - capacity dims.1 dims.2 ts else 0)).filterMap
        (fun f => (loadOf fs f).thumb?)).length
      = (((sortByCtime fs files).drop
            (if files.length > capacity dims.1 dims.2 ts
             then files.length - capacity dims.1 dims.2 ts else 0)).filter
          (fun f => (loadOf fs f).isOk)).length := by
  constructor
  · simp only [load_images_to_cache, hnum, if_false, preview_loop_eq]
    rw [kept_filenames]
  · exact length_filterMap_thumb _ _

/-- Witness for C8: one valid image plus one file raising a permission error
yields exactly one thumbnail and one filename. -/
theorem c8_per_file_drop_witness :
    capacity 2 1 1 ≠ 0
    ∧ load_images_to_cache
        [("v.jpg", ⟨1, 1, .ok [[7]]⟩), ("p.jpg", ⟨2, 2, .permError⟩)]
        empty_preview_cache ["v.jpg", "p.jpg"] (2, 1) 1
      = process_samples empty_preview_cache [[[7]]] ["v.jpg"] 2
    ∧ (load_images_to_cache
        [("v.jpg", ⟨1, 1, .ok [[7]]⟩), ("p.jpg", ⟨2, 2, .permError⟩)]
        empty_preview_cache ["v.jpg", "p.jpg"] (2, 1) 1).1.images
      = some [[[7]]]
    ∧ (load_images_to_cache
        [("v.jpg", ⟨1, 1, .ok [[7]]⟩), ("p.jpg", ⟨2, 2, .permError⟩)]
        empty_preview_cache ["v.jpg", "p.jpg"] (2, 1) 1).1.filenames
      = ["v.jpg"]
    ∧ (load_images_to_cache
        [("v.jpg", ⟨1, 1, .ok [[7]]⟩), ("p.jpg", ⟨2, 2, .permError⟩)]
        empty_preview_cache ["v.jpg", "p.jpg"] (2, 1) 1).2 = true := by
  refine ⟨by decide, ?_, by decide, by decide, by decide⟩
  exact ((c8_per_file_drop
    [("v.jpg", ⟨1, 1, .ok [[7]]⟩), ("p.jpg", ⟨2, 2, .permError⟩)]
    empty_preview_cache ["v.jpg", "p.jpg"] (2, 1) 1 (by decide)).1).trans
    (by decide)

/-- Claim C5: if every newly scanned file fails to load (so the refresh
produces zero usable thumbnails), the refresh is a no-op on displayed state:
the thumbnail cache, the cached filename list and the composed preview
output are all left unchanged by `load_latest_preview`.  The hypothesis
quantifies over exactly the files the poll scans — the output of
`_get_newest_filenames` on the (gui-preview-filtered) directory listing —
so older, still-loadable files may remain in the directory. -/
theorem c5_no_op_on_all_failures (st : ImagesState) (ts : Nat)
    (dims : Nat × Nat)
    (hfail : ∀ f ∈ (get_newest_filenames (mtimeOf st.fs)
        st.previewcache.modified (filterToGuiPreview
          (guiPreviewPath st.pathoutput) (get_images st.fs))).1,
      (loadOf st.fs f).isOk = false) :
    (load_latest_preview st ts dims).previewcache.images
        = st.previewcache.images
    ∧ (load_latest_preview st ts dims).previewcache.filenames
        = st.previewcache.filenames
    ∧ (load_latest_preview st ts dims).previewoutput = st.previewoutput := by
  have hlic := load_images_to_cache_all_fail st.fs
    { st.previewcache with modified := (get_newest_filenames (mtimeOf st.fs)
        st.previewcache.modified (filterToGuiPreview
          (guiPreviewPath st.pathoutput) (get_images st.fs))).2 }
    (get_newest_filenames (mtimeOf st.fs) st.previewcache.modified
      (filterToGuiPreview (guiPreviewPath st.pathoutput)
        (get_images st.fs))).1
    dims ts hfail
  simp only [load_latest_preview]
  split
  · exact ⟨rfl, rfl, rfl⟩
  · split
    · exact ⟨rfl, rfl, rfl⟩
    · rw [hlic]
      split
      · split
        · exact ⟨rfl, rfl, rfl⟩
        · exact ⟨rfl, rfl, rfl⟩
      · rename_i hcond
        exact absurd rfl hcond

/-- Witness for C5: the directory still holds an older loadable image (its
load succeeds), but the only file newer than the watermark fails; the cache,
the filename list and the composed output stay exactly as they were. -/
theorem c5_no_op_on_all_failures_witness :
    (∀ f ∈ (get_newest_filenames (mtimeOf c5stW.fs)
        c5stW.previewcache.modified (filterToGuiPreview
          (guiPreviewPath c5stW.pathoutput) (get_images c5stW.fs))).1,
      (loadOf c5stW.fs f).isOk = false)
    ∧ (loadOf c5stW.fs "o/a.png").isOk = true
    ∧ (load_latest_preview c5stW 1 (2, 2)).previewcache.images = some [[[9]]]
    ∧ (load_latest_preview c5stW 1 (2, 2)).previewcache.filenames
        = ["o/a.png"]
    ∧ (load_latest_preview c5stW 1 (2, 2)).previewoutput = some [[[[9]]]] := by
  have h := c5_no_op_on_all_failures c5stW 1 (2, 2) (by decide)
  exact ⟨by decide, by decide, h.1.trans (by decide),
    h.2.1.trans (by decide), h.2.2.trans (by decide)⟩

/-- Claim C3: when the reserved single-preview file is among the scanned
image files, the refresh considers only that file (it is not unioned with
the others), and after it is loaded successfully into the cache it is
deleted from disk. -/
theorem c3_gui_preview_only_and_deleted (st : ImagesState) (ts : Nat)
    (dims : Nat × Nat)
    (hmem : (get_images st.fs).contains (guiPreviewPath st.pathoutput) = true)
    (hscan : (get_newest_filenames (mtimeOf st.fs) st.previewcache.modified
        [guiPreviewPath st.pathoutput]).1 = [guiPreviewPath st.pathoutput])
    (hload : (load_images_to_cache st.fs
        { st.previewcache with modified := (get_newest_filenames
            (mtimeOf st.fs) st.previewcache.modified
            [guiPreviewPath st.pathoutput]).2 }
        [guiPreviewPath st.pathoutput] dims ts).2 = true) :
    filterToGuiPreview (guiPreviewPath st.pathoutput) (get_images st.fs)
        = [guiPreviewPath st.pathoutput]
    ∧ (load_latest_preview st ts dims).fs
        = st.fs.filter (fun p => p.1 != guiPreviewPath st.pathoutput)
    ∧ (load_latest_preview st ts dims).fs.lookup
        (guiPreviewPath st.pathoutput) = none := by
  have hflt : filterToGuiPreview (guiPreviewPath st.pathoutput)
      (get_images st.fs) = [guiPreviewPath st.pathoutput] := by
    unfold filterToGuiPreview
    rw [if_pos hmem]
  have hne : (get_images st.fs).isEmpty = false := by
    cases hgi : get_images st.fs with
    | nil =>
        rw [hgi] at hmem
        exact absurd hmem (by simp)
    | cons a t => rfl
  have hfs : (load_latest_preview st ts dims).fs
      = st.fs.filter (fun p => p.1 != guiPreviewPath st.pathoutput) := by
    simp only [load_latest_preview, hmem, hne, hflt, hscan, hload,
      Bool.not_true, Bool.and_false, Bool.or_false, Bool.false_or,
      Bool.not_false, List.isEmpty_cons, beq_self_eq_true, if_true, if_false,
      Bool.false_eq_true, ite_false, ite_true]
    split <;> rfl
  exact ⟨hflt, hfs, by rw [hfs]; exact lookup_filter_ne st.fs _⟩

/-- Witness for C3: with the reserved preview file next to an ordinary image
and an unset watermark, the refresh loads only the preview file and removes
it from the directory. -/
theorem c3_gui_preview_only_and_deleted_witness :
    (get_images c3stW.fs).contains (guiPreviewPath c3stW.pathoutput) = true
    ∧ (load_latest_preview c3stW 1 (1, 1)).fs
        = [("o/a.png", ⟨1, 1, .ok [[3]]⟩)]
    ∧ (load_latest_preview c3stW 1 (1, 1)).fs.lookup
        (guiPreviewPath c3stW.pathoutput) = none := by
  have h := c3_gui_preview_only_and_deleted c3stW 1 (1, 1)
    (by decide) (by decide) (by decide)
  exact ⟨by decide, h.2.1.trans (by decide), h.2.2⟩

/-- Claim C4: when the refresh is for the reserved single-preview file and
loading it fails, `load_latest_preview` resets the watermark to unset so the
file is retried on the next poll. -/
theorem c4_watermark_reset_on_failed_gui_preview (st : ImagesState) (ts : Nat)
    (dims : Nat × Nat)
    (hmem : (get_images st.fs).contains (guiPreviewPath st.pathoutput) = true)
    (hscan : (get_newest_filenames (mtimeOf st.fs) st.previewcache.modified
        [guiPreviewPath st.pathoutput]).1 = [guiPreviewPath st.pathoutput])
    (hload : (load_images_to_cache st.fs
        { st.previewcache with modified := (get_newest_filenames
            (mtimeOf st.fs) st.previewcache.modified
            [guiPreviewPath st.pathoutput]).2 }
        [guiPreviewPath st.pathoutput] dims ts).2 = false) :
    (load_latest_preview st ts dims).previewcache.modified = none := by
  have hflt : filterToGuiPreview (guiPreviewPath st.pathoutput)
      (get_images st.fs) = [guiPreviewPath st.pathoutput] := by
    unfold filterToGuiPreview
    rw [if_pos hmem]
  have hne : (get_images st.fs).isEmpty = false := by
    cases hgi : get_images st.fs with
    | nil =>
        rw [hgi] at hmem
        exact absurd hmem (by simp)
    | cons a t => rfl
  simp only [load_latest_preview, hmem, hne, hflt, hscan, hload,
    Bool.not_true, Bool.and_false, Bool.or_false, Bool.false_or,
    Bool.not_false, List.isEmpty_cons, beq_self_eq_true, if_true, if_false,
    Bool.false_eq_true, ite_false, ite_true, List.contains_cons,
    Bool.true_or]

/-- Witness for C4: the reserved preview file is present but raises a
permission error on load; after the refresh the watermark is unset again. -/
theorem c4_watermark_reset_on_failed_gui_preview_witness :
    (get_images c4stW.fs).contains (guiPreviewPath c4stW.pathoutput) = true
    ∧ (load_latest_preview c4stW 1 (1, 1)).previewcache.modified = none := by
  have h := c4_watermark_reset_on_failed_gui_preview c4stW 1 (1, 1)
    (by decide) (by decide) (by decide)
  exact ⟨by decide, h⟩

/-- Claim C7: with k cached thumbnails and cols * rows grid cells, k < cells,
`_place_previews` places the k real thumbnails first in row-major order and
fills the remaining cells with the placeholder, which is created lazily on
first use (and kept in the cache) and reused when already present. -/
theorem c7_grid_row_major_padding (c : PreviewCache) (dims : Nat × Nat)
    (samples : List Thumb) (r j : Nat)
    (himg : c.images = some samples)
    (hcols : 0 < dims.1 / thumbSizeOf samples)
    (hrows : 0 < dims.2 / thumbSizeOf samples)
    (hk : samples.length
        < (dims.1 / thumbSizeOf samples) * (dims.2 / thumbSizeOf samples))
    (hr : r < dims.2 / thumbSizeOf samples)
    (hj : j < dims.1 / thumbSizeOf samples) :
    ((place_previews c dims).2).isSome = true
    ∧ (((place_previews c dims).2.getD []).getD r []).getD j []
        = (if r * (dims.1 / thumbSizeOf samples) + j < samples.length
           then samples.getD (r * (dims.1 / thumbSizeOf samples) + j) []
           else c.placeholder.getD (create_placeholder (thumbSizeOf samples)))
    ∧ (place_previews c dims).1.placeholder
        = some (c.placeholder.getD (create_placeholder (thumbSizeOf samples)))
    ∧ (∀ p, c.placeholder = some p →
        c.placeholder.getD (create_placeholder (thumbSizeOf samples)) = p) := by
  have hcond : ¬(dims.1 / thumbSizeOf samples = 0
      ∨ dims.2 / thumbSizeOf samples = 0) := by
    rintro (h0 | h0) <;> omega
  have hph := placeholder_resolved c (thumbSizeOf samples)
  have hrem : (dims.1 / thumbSizeOf samples) * (dims.2 / thumbSizeOf samples)
      - samples.length ≠ 0 := by omega
  have hpp : place_previews c dims
      = ((if c.placeholder.isNone
            then { c with placeholder := some (create_placeholder (thumbSizeOf samples)) }
            else c),
         some (place_samples (samples ++ List.replicate
             ((dims.1 / thumbSizeOf samples) * (dims.2 / thumbSizeOf samples)
               - samples.length)
             (c.placeholder.getD (create_placeholder (thumbSizeOf samples))))
           (dims.1 / thumbSizeOf samples) (dims.2 / thumbSizeOf samples))) := by
    have hph2 := placeholder_resolved c (thumbSizeOf samples)
    rw [himg] at hph2
    simp only [place_previews, himg]
    rw [if_neg hcond, if_pos hrem, hph2]
    simp only [Option.getD_some]
  have harith : r * (dims.1 / thumbSizeOf samples) + j
      < (dims.1 / thumbSizeOf samples) * (dims.2 / thumbSizeOf samples) := by
    have h1 : r * (dims.1 / thumbSizeOf samples) + j
        < (r + 1) * (dims.1 / thumbSizeOf samples) := by
      rw [Nat.succ_mul]
      exact Nat.add_lt_add_left hj _
    have h2 : (r + 1) * (dims.1 / thumbSizeOf samples)
        ≤ (dims.2 / thumbSizeOf samples) * (dims.1 / thumbSizeOf samples) :=
      Nat.mul_le_mul_right _ hr
    rw [Nat.mul_comm (dims.1 / thumbSizeOf samples)]
    exact lt_of_lt_of_le h1 h2
  refine ⟨?_, ?_, ?_, ?_⟩
  · rw [hpp]
    rfl
  · rw [hpp]
    dsimp only
    simp only [Option.getD_some]
    rw [getD_place_samples _ _ _ _ _ hr hj, getD_append_replicate]
    have hC : samples.length + ((dims.1 / thumbSizeOf samples)
        * (dims.2 / thumbSizeOf samples) - samples.length)
        = (dims.1 / thumbSizeOf samples) * (dims.2 / thumbSizeOf samples) :=
      Nat.add_sub_cancel' (Nat.le_of_lt hk)
    rw [hC]
    by_cases hlt : r * (dims.1 / thumbSizeOf samples) + j < samples.length
    · rw [if_pos hlt, if_pos hlt]
    · rw [if_neg hlt, if_neg hlt, if_pos harith]
  · rw [hpp]
    dsimp only
    exact hph
  · intro p hp
    rw [hp]
    rfl

/-- Witness for C7: two 2 x 2 thumbnails in a 4 x 4 region (capacity 4): the
cell at row 0, column 1 is the second real thumbnail and the cell at row 1,
column 0 is the placeholder, which is now cached. -/
theorem c7_grid_row_major_padding_witness :
    (((place_previews
        { modified := none, images := some [[[1, 2], [3, 4]], [[5, 6], [7, 8]]],
          filenames := ["a", "b"], placeholder := none }
        (4, 4)).2.getD []).getD 0 []).getD 1 [] = [[5, 6], [7, 8]]
    ∧ (((place_previews
        { modified := none, images := some [[[1, 2], [3, 4]], [[5, 6], [7, 8]]],
          filenames := ["a", "b"], placeholder := none }
        (4, 4)).2.getD []).getD 1 []).getD 0 [] = create_placeholder 2
    ∧ (place_previews
        { modified := none, images := some [[[1, 2], [3, 4]], [[5, 6], [7, 8]]],
          filenames := ["a", "b"], placeholder := none }
        (4, 4)).1.placeholder = some (create_placeholder 2) := by
  have h1 := c7_grid_row_major_padding
    { modified := none, images := some [[[1, 2], [3, 4]], [[5, 6], [7, 8]]],
      filenames := ["a", "b"], placeholder := none }
    (4, 4) [[[1, 2], [3, 4]], [[5, 6], [7, 8]]] 0 1 rfl
    (by decide) (by decide) (by decide) (by decide) (by decide)
  have h2 := c7_grid_row_major_padding
    { modified := none, images := some [[[1, 2], [3, 4]], [[5, 6], [7, 8]]],
      filenames := ["a", "b"], placeholder := none }
    (4, 4) [[[1, 2], [3, 4]], [[5, 6], [7, 8]]] 1 0 rfl
    (by decide) (by decide) (by decide) (by decide) (by decide)
  refine ⟨h1.2.1.trans (by decide), h2.2.1.trans (by decide),
    h1.2.2.1.trans (by decide)⟩

end Faceswap
